import Mathlib

/-!
Verification of the error-state EKF implemented in `es_ekf.py`
(repository StateEstimationAV).

The filter's numeric arithmetic is embedded over `ℚ`.  The rotation
algebra (`rotations.py`: quaternion constructors, quaternion-to-matrix
conversion, skew-symmetric operator) is an external collaborator of the
repository; it is modelled from the spec as a capability interface
(`RotationAlgebra`), with the purely algebraic parts (Hamilton product,
skew-symmetric matrix) given their standard concrete definitions.
-/

namespace ESEKF

/-- A quaternion, stored as scalar part `w` and vector part `x, y, z`,
mirroring the external `Quaternion` class. -/
structure Quat where
  w : ℚ
  x : ℚ
  y : ℚ
  z : ℚ
deriving DecidableEq

/-- Modelled from the spec: quaternion composition (Hamilton product),
the `quaternion composition` capability of the external Rotation Algebra (§2, §6). -/
def quatMul (a b : Quat) : Quat :=
  ⟨a.w * b.w - a.x * b.x - a.y * b.y - a.z * b.z,
   a.w * b.x + a.x * b.w + a.y * b.z - a.z * b.y,
   a.w * b.y - a.x * b.z + a.y * b.w + a.z * b.x,
   a.w * b.z + a.x * b.y - a.y * b.x + a.z * b.w⟩

/-- Modelled from the spec: `left-multiply(q_a, q_b)` of the external
Rotation Algebra — `self.quat_mult_left(q)` composes `self` on the left of `q`. -/
def Quat.quat_mult_left (self q : Quat) : Quat := quatMul self q

/-- Modelled from the spec: `right-multiply(q_a, q_b)` of the external
Rotation Algebra — `self.quat_mult_right(q)` composes `self` on the right of `q`. -/
def Quat.quat_mult_right (self q : Quat) : Quat := quatMul q self

/-- Squared Euclidean norm of a quaternion. -/
def qnorm2 (q : Quat) : ℚ := q.w * q.w + q.x * q.x + q.y * q.y + q.z * q.z

/-- The identity quaternion (1, 0, 0, 0). -/
def quatId : Quat := ⟨1, 0, 0, 0⟩

/-- Modelled from the spec: the constructors and conversions of the external
Rotation Algebra capability (§2, §6) that the filter core consumes:
quaternion from an axis-angle vector, quaternion from Euler angles, and
quaternion-to-rotation-matrix.  The filter treats them as an opaque
interface; their trigonometric bodies live outside the repository's `src`. -/
structure RotationAlgebra where
  fromAxisAngle : (Fin 3 → ℚ) → Quat
  fromEuler : (Fin 3 → ℚ) → Quat
  toMat : Quat → Matrix (Fin 3) (Fin 3) ℚ

/-- Modelled from the spec: `skew-symmetric(vector3) → 3×3` of the external
Rotation Algebra (§6), the standard cross-product matrix. -/
def skew_symmetric (v : Fin 3 → ℚ) : Matrix (Fin 3) (Fin 3) ℚ :=
  !![0, -(v 2), v 1; v 2, 0, -(v 0); -(v 1), v 0, 0]

/-! ### Constants (`es_ekf.py`, sections 2–3) -/

/-- Specific-force noise variance (`var_imu_f = 0.01`, the active Part 3 value). -/
def var_imu_f : ℚ := 1 / 100

/-- Angular-rate noise variance (`var_imu_w = 0.01`). -/
def var_imu_w : ℚ := 1 / 100

/-- GNSS measurement variance (`var_gnss = 10.`). -/
def var_gnss : ℚ := 10

/-- LIDAR measurement variance (`var_lidar = 1.`). -/
def var_lidar : ℚ := 1

/-- Gravity vector `g = np.array([0, 0, -9.81])`. -/
def g : Fin 3 → ℚ := ![0, 0, -981 / 100]

/-- Motion-model noise Jacobian `l_jac`: a 9×6 zero matrix with
`l_jac[3:, :] = np.eye(6)`. -/
def l_jac : Matrix (Fin 9) (Fin 6) ℚ :=
  Matrix.of fun i j => if 3 ≤ (i : ℕ) ∧ (i : ℕ) - 3 = (j : ℕ) then 1 else 0

/-- Measurement-model Jacobian `h_jac`: a 3×9 zero matrix with
`h_jac[:, :3] = np.eye(3)`. -/
def h_jac : Matrix (Fin 3) (Fin 9) ℚ :=
  Matrix.of fun i j => if (j : ℕ) < 3 ∧ (i : ℕ) = (j : ℕ) then 1 else 0

/-! ### Measurement update (`es_ekf.py`, lines 151–163) -/

/-- Explicit 3×3 matrix inverse by the adjugate formula; `np.linalg.inv`
applied to the (always 3×3) innovation covariance. -/
def inv3 (A : Matrix (Fin 3) (Fin 3) ℚ) : Matrix (Fin 3) (Fin 3) ℚ :=
  A.det⁻¹ • A.adjugate

/-- The Kalman gain computed in `measurement_update` (line 154):
`p_cov_check.dot(h_jac.T).dot(inv(h_jac.dot(p_cov_check).dot(h_jac.T) + eye(3)*sensor_var))`. -/
def k_gain (sensor_var : ℚ) (p_cov_check : Matrix (Fin 9) (Fin 9) ℚ) :
    Matrix (Fin 9) (Fin 3) ℚ :=
  p_cov_check * h_jac.transpose *
    inv3 (h_jac * p_cov_check * h_jac.transpose + sensor_var • (1 : Matrix (Fin 3) (Fin 3) ℚ))

/-- Slice `x[0:3]` of a 9-vector. -/
def seg0 (x : Fin 9 → ℚ) : Fin 3 → ℚ := fun i => x ⟨(i : ℕ), by omega⟩

/-- Slice `x[3:6]` of a 9-vector. -/
def seg1 (x : Fin 9 → ℚ) : Fin 3 → ℚ := fun i => x ⟨(i : ℕ) + 3, by omega⟩

/-- Slice `x[6:9]` of a 9-vector. -/
def seg2 (x : Fin 9 → ℚ) : Fin 3 → ℚ := fun i => x ⟨(i : ℕ) + 6, by omega⟩

/-- `measurement_update(sensor_var, p_cov_check, y_k, p_check, v_check, q_check)`
(lines 151–163), the single corrector shared by GNSS and LIDAR.  Returns
`(p_hat, v_hat, q_hat, p_cov_hat)`. -/
def measurement_update (R : RotationAlgebra) (sensor_var : ℚ)
    (p_cov_check : Matrix (Fin 9) (Fin 9) ℚ) (y_k p_check v_check : Fin 3 → ℚ)
    (q_check : Quat) :
    (Fin 3 → ℚ) × (Fin 3 → ℚ) × Quat × Matrix (Fin 9) (Fin 9) ℚ :=
  let kg := k_gain sensor_var p_cov_check
  let x_error := kg.mulVec (y_k - p_check)
  let p_hat := p_check + seg0 x_error
  let v_hat := v_check + seg1 x_error
  let q_hat := (R.fromEuler (seg2 x_error)).quat_mult_left q_check
  let p_cov_hat := ((1 : Matrix (Fin 9) (Fin 9) ℚ) - kg * h_jac) * p_cov_check
  (p_hat, v_hat, q_hat, p_cov_hat)

/-! ### Nominal propagation and covariance propagation (lines 171–193) -/

/-- The nominal state: position, velocity, orientation quaternion
(`p_est[k]`, `v_est[k]`, `q_est[k]`). -/
structure NomState where
  p : Fin 3 → ℚ
  v : Fin 3 → ℚ
  q : Quat
deriving DecidableEq

/-- One nominal-state propagation (lines 175–182): rotate the specific force
with the previous orientation, integrate position (Δt² term) and velocity
(Δt term) adding gravity, and compose the orientation with the quaternion of
the axis-angle vector `imu_w * delta_t` via `quat_mult_right`. -/
def propagateNominal (R : RotationAlgebra) (delta_t : ℚ) (f w : Fin 3 → ℚ)
    (st : NomState) : NomState :=
  let C_ns := R.toMat st.q
  let C_ns_d_f_km := C_ns.mulVec f
  { p := st.p + delta_t • st.v + (delta_t ^ 2 / 2) • (C_ns_d_f_km + g)
    v := st.v + delta_t • (C_ns_d_f_km + g)
    q := (R.fromAxisAngle (delta_t • w)).quat_mult_right st.q }

/-- The motion-model Jacobian `f_ja_km` (lines 185–187): `np.identity(9)`,
then `f_ja_km[0:3, 3:6] = np.identity(3) * delta_t` and
`f_ja_km[3:6, 6:9] = -skew_symmetric(C_ns_d_f_km) * delta_t`. -/
def f_ja_km (delta_t : ℚ) (cf : Fin 3 → ℚ) : Matrix (Fin 9) (Fin 9) ℚ :=
  Matrix.of fun i j =>
    if h : (i : ℕ) < 3 ∧ 3 ≤ (j : ℕ) ∧ (j : ℕ) < 6 then
      (1 : Matrix (Fin 3) (Fin 3) ℚ) ⟨(i : ℕ), h.1⟩ ⟨(j : ℕ) - 3, by omega⟩ * delta_t
    else if h2 : 3 ≤ (i : ℕ) ∧ (i : ℕ) < 6 ∧ 6 ≤ (j : ℕ) then
      -skew_symmetric cf ⟨(i : ℕ) - 3, by omega⟩ ⟨(j : ℕ) - 6, by have := j.isLt; omega⟩
        * delta_t
    else (1 : Matrix (Fin 9) (Fin 9) ℚ) i j

/-- The process-noise covariance `q_cov_km` (lines 190–192): `np.identity(6)`,
then the `[0:3,0:3]` block is multiplied elementwise by `delta_t**2 * eye(3) * vf`
and the `[3:6,3:6]` block elementwise by `delta_t**2 * eye(3) * vw`. -/
def q_cov_km (delta_t vf vw : ℚ) : Matrix (Fin 6) (Fin 6) ℚ :=
  Matrix.of fun i j =>
    if (i : ℕ) < 3 ∧ (j : ℕ) < 3 then
      (1 : Matrix (Fin 6) (Fin 6) ℚ) i j * (delta_t ^ 2 * (if i = j then 1 else 0) * vf)
    else if 3 ≤ (i : ℕ) ∧ 3 ≤ (j : ℕ) then
      (1 : Matrix (Fin 6) (Fin 6) ℚ) i j * (delta_t ^ 2 * (if i = j then 1 else 0) * vw)
    else (1 : Matrix (Fin 6) (Fin 6) ℚ) i j

/-- Covariance propagation (line 193):
`p_cov[k] = f_ja_km @ p_cov[k-1] @ f_ja_km.T + l_jac @ q_cov_km @ l_jac.T`. -/
def covPropagate (delta_t : ℚ) (cf : Fin 3 → ℚ) (vf vw : ℚ)
    (P : Matrix (Fin 9) (Fin 9) ℚ) : Matrix (Fin 9) (Fin 9) ℚ :=
  f_ja_km delta_t cf * P * (f_ja_km delta_t cf).transpose
    + l_jac * q_cov_km delta_t vf vw * l_jac.transpose

/-! ### The fusion scheduler (main filter loop, lines 171–203) -/

/-- The three externally loaded, already materialized timelines: inertial
samples (specific force `imu_f`, angular rate `imu_w`, shared timestamps),
GNSS position samples and LIDAR position samples, with their lengths. -/
structure FilterInput where
  N : ℕ
  imu_t : ℕ → ℚ
  imu_f : ℕ → (Fin 3 → ℚ)
  imu_w : ℕ → (Fin 3 → ℚ)
  gnssN : ℕ
  gnss_t : ℕ → ℚ
  gnss_data : ℕ → (Fin 3 → ℚ)
  lidarN : ℕ
  lidar_t : ℕ → ℚ
  lidar_data : ℕ → (Fin 3 → ℚ)

/-- The loop-carried state: the index-`k` nominal state and covariance
together with the two measurement cursors `gnss_i`, `lidar_i`. -/
structure FilterState where
  s : NomState
  P : Matrix (Fin 9) (Fin 9) ℚ
  gnss_i : ℕ
  lidar_i : ℕ
deriving DecidableEq

/-- One iteration of the main filter loop at index `k ≥ 1` (lines 171–203):
propagate the nominal state and covariance with sample `k-1`'s inertial data,
then conditionally apply the GNSS correction (exact timestamp match at `k`)
and then the LIDAR correction (exact timestamp match at `k-1`), each
advancing its cursor. -/
def filterStep (R : RotationAlgebra) (inp : FilterInput) (k : ℕ)
    (st : FilterState) : FilterState :=
  let delta_t := inp.imu_t k - inp.imu_t (k - 1)
  let C_ns_d_f_km := (R.toMat st.s.q).mulVec (inp.imu_f (k - 1))
  let s1 := propagateNominal R delta_t (inp.imu_f (k - 1)) (inp.imu_w (k - 1)) st.s
  let P1 := covPropagate delta_t C_ns_d_f_km var_imu_f var_imu_w st.P
  let st1 : FilterState := ⟨s1, P1, st.gnss_i, st.lidar_i⟩
  let st2 : FilterState :=
    if st1.gnss_i < inp.gnssN ∧ inp.imu_t k = inp.gnss_t st1.gnss_i then
      let r := measurement_update R var_gnss st1.P (inp.gnss_data st1.gnss_i)
        st1.s.p st1.s.v st1.s.q
      ⟨⟨r.1, r.2.1, r.2.2.1⟩, r.2.2.2, st1.gnss_i + 1, st1.lidar_i⟩
    else st1
  let st3 : FilterState :=
    if st2.lidar_i < inp.lidarN ∧ inp.lidar_t st2.lidar_i = inp.imu_t (k - 1) then
      let r := measurement_update R var_lidar st2.P (inp.lidar_data st2.lidar_i)
        st2.s.p st2.s.v st2.s.q
      ⟨⟨r.1, r.2.1, r.2.2.1⟩, r.2.2.2, st2.gnss_i, st2.lidar_i + 1⟩
    else st2
  st3

/-- The filter state after loop iterations `1 … k` (`stateAt 0` is the
externally seeded initial state; iterate `filterStep`). -/
def stateAt (R : RotationAlgebra) (inp : FilterInput) (init : FilterState) :
    ℕ → FilterState
  | 0 => init
  | k + 1 => filterStep R inp (k + 1) (stateAt R inp init k)

/-! ### Spec-side (claim-form) definitions, for refinement statements -/

/-- The propagator as the spec's words describe it: position
`p + Δt·v + (Δt²/2)·(C(q)·f + g)`, velocity `v + Δt·(C(q)·f + g)`, and
orientation `q` composed (on the body-frame side, i.e. on the right of `q`)
with the quaternion built from the axis-angle vector `ω·Δt`. -/
def propagateClaim (R : RotationAlgebra) (delta_t : ℚ) (f w : Fin 3 → ℚ)
    (st : NomState) : NomState :=
  { p := st.p + delta_t • st.v + (delta_t ^ 2 / 2) • ((R.toMat st.q).mulVec f + g)
    v := st.v + delta_t • ((R.toMat st.q).mulVec f + g)
    q := quatMul st.q (R.fromAxisAngle (delta_t • w)) }

/-- The motion-model Jacobian as the spec's words describe it: the 9×9
identity plus a position-velocity block `I₃·Δt` at rows 0–2 / columns 3–5
plus a velocity-rotation block `−skew(C(q)·f)·Δt` at rows 3–5 / columns 6–8. -/
def F_claim (delta_t : ℚ) (cf : Fin 3 → ℚ) : Matrix (Fin 9) (Fin 9) ℚ :=
  1 + (Matrix.of fun (i j : Fin 9) =>
        if (i : ℕ) < 3 ∧ (j : ℕ) = (i : ℕ) + 3 then delta_t else 0)
    + (Matrix.of fun (i j : Fin 9) =>
        if h : 3 ≤ (i : ℕ) ∧ (i : ℕ) < 6 ∧ 6 ≤ (j : ℕ) then
          (-skew_symmetric cf) ⟨(i : ℕ) - 3, by omega⟩
            ⟨(j : ℕ) - 6, by have := j.isLt; omega⟩ * delta_t
        else 0)

/-- The process-noise covariance as the spec's words describe it: the 6×6
diagonal matrix `diag(Δt²·var_f·I₃, Δt²·var_ω·I₃)`. -/
def Q_claim (delta_t vf vw : ℚ) : Matrix (Fin 6) (Fin 6) ℚ :=
  Matrix.of fun i j =>
    if i = j then (if (i : ℕ) < 3 then delta_t ^ 2 * vf else delta_t ^ 2 * vw) else 0

/-- The noise Jacobian as the spec's words describe it: the fixed 9×6 matrix
with `L[3:9, 0:6] = I₆` and zero elsewhere. -/
def L_claim : Matrix (Fin 9) (Fin 6) ℚ :=
  Matrix.of fun i j =>
    if h : 3 ≤ (i : ℕ) then
      (1 : Matrix (Fin 6) (Fin 6) ℚ) ⟨(i : ℕ) - 3, by have := i.isLt; omega⟩ j
    else 0

/-- The measurement corrector as the spec's words describe it:
`S = H·P·Hᵀ + σ²·I₃`, `K = P·Hᵀ·S⁻¹`, `δx = K·(y − p)`, corrected position
`p + δx[0:3]`, velocity `v + δx[3:6]`, orientation the quaternion built from
the small-angle rotation vector `δx[6:9]` composed on the left of `q`, and
covariance `(I₉ − K·H)·P`. -/
def measurementClaim (R : RotationAlgebra) (sensor_var : ℚ)
    (P : Matrix (Fin 9) (Fin 9) ℚ) (y p v : Fin 3 → ℚ) (q : Quat) :
    (Fin 3 → ℚ) × (Fin 3 → ℚ) × Quat × Matrix (Fin 9) (Fin 9) ℚ :=
  let S := h_jac * P * h_jac.transpose + sensor_var • (1 : Matrix (Fin 3) (Fin 3) ℚ)
  let K := P * h_jac.transpose * inv3 S
  let dx := K.mulVec (y - p)
  (p + seg0 dx, v + seg1 dx, quatMul (R.fromEuler (seg2 dx)) q,
   ((1 : Matrix (Fin 9) (Fin 9) ℚ) - K * h_jac) * P)

/-- The GNSS gating condition of the loop (line 195): the GNSS cursor has
unconsumed samples and the GNSS timestamp at the cursor equals the inertial
timestamp at `k`. -/
def gnssFires (inp : FilterInput) (gi k : ℕ) : Prop :=
  gi < inp.gnssN ∧ inp.imu_t k = inp.gnss_t gi

instance (inp : FilterInput) (gi k : ℕ) : Decidable (gnssFires inp gi k) :=
  inferInstanceAs (Decidable (_ ∧ _))

/-- The LIDAR gating condition of the loop (line 200): the LIDAR cursor has
unconsumed samples and the LIDAR timestamp at the cursor equals the inertial
timestamp at `k − 1`. -/
def lidarFires (inp : FilterInput) (li k : ℕ) : Prop :=
  li < inp.lidarN ∧ inp.lidar_t li = inp.imu_t (k - 1)

instance (inp : FilterInput) (li k : ℕ) : Decidable (lidarFires inp li k) :=
  inferInstanceAs (Decidable (_ ∧ _))

/-- Run the corrector on a nominal state and covariance, as the spec's
scheduler wording has it ("run the Corrector with the … variance"). -/
def applyCorrector (R : RotationAlgebra) (var : ℚ) (y : Fin 3 → ℚ)
    (s : NomState) (P : Matrix (Fin 9) (Fin 9) ℚ) :
    NomState × Matrix (Fin 9) (Fin 9) ℚ :=
  let r := measurement_update R var P y s.p s.v s.q
  (⟨r.1, r.2.1, r.2.2.1⟩, r.2.2.2)

/-- One scheduler step as the spec's words describe it (§4.4): propagate,
then conditionally apply the GNSS correction (advancing the GNSS cursor),
then conditionally apply the LIDAR correction (advancing the LIDAR cursor)
to the state and covariance already updated by the GNSS correction. -/
def schedStepClaim (R : RotationAlgebra) (inp : FilterInput) (k : ℕ)
    (st : FilterState) : FilterState :=
  let s1 := propagateNominal R (inp.imu_t k - inp.imu_t (k - 1)) (inp.imu_f (k - 1))
    (inp.imu_w (k - 1)) st.s
  let P1 := covPropagate (inp.imu_t k - inp.imu_t (k - 1))
    ((R.toMat st.s.q).mulVec (inp.imu_f (k - 1))) var_imu_f var_imu_w st.P
  let g1 := if gnssFires inp st.gnss_i k then
      applyCorrector R var_gnss (inp.gnss_data st.gnss_i) s1 P1
    else (s1, P1)
  let gi1 := if gnssFires inp st.gnss_i k then st.gnss_i + 1 else st.gnss_i
  let l1 := if lidarFires inp st.lidar_i k then
      applyCorrector R var_lidar (inp.lidar_data st.lidar_i) g1.1 g1.2
    else g1
  let li1 := if lidarFires inp st.lidar_i k then st.lidar_i + 1 else st.lidar_i
  ⟨l1.1, l1.2, gi1, li1⟩

/-- A concrete rotation-algebra instance (identity constructors and identity
direction-cosine matrix), used to instantiate universally quantified
statements at concrete inputs. -/
def trivialRA : RotationAlgebra :=
  ⟨fun _ => quatId, fun _ => quatId, fun _ => 1⟩

/-- A concrete nominal state used in concrete instantiations. -/
def st0 : NomState := ⟨![1, 2, 3], ![4, 5, 6], ⟨1, 0, 0, 0⟩⟩

/-- The inclusion of the position indices `0–2` into the 9-dimensional
error-state index range. -/
def c39 : Fin 3 → Fin 9 := Fin.castLE (by norm_num)

/-- The position block (rows 0–2, columns 0–2) of a 9×9 error covariance. -/
def posBlock (M : Matrix (Fin 9) (Fin 9) ℚ) : Matrix (Fin 3) (Fin 3) ℚ :=
  M.submatrix c39 c39

/-- The position block (rows 0–2) of the 9×3 Kalman gain. -/
def topBlock (K : Matrix (Fin 9) (Fin 3) ℚ) : Matrix (Fin 3) (Fin 3) ℚ :=
  K.submatrix c39 id

/-- Symmetry together with positive semi-definiteness of a rational matrix,
stated via the quadratic form. -/
def SymPosSemidef {n : ℕ} (M : Matrix (Fin n) (Fin n) ℚ) : Prop :=
  M.transpose = M ∧ ∀ x : Fin n → ℚ, 0 ≤ Matrix.dotProduct x (M.mulVec x)

/-- A concrete initial filter state (zero covariance, as in
`p_cov[0] = np.zeros(9)`, cursors at 0). -/
def init0 : FilterState := ⟨st0, 0, 0, 0⟩

/-- A concrete two-sample input timeline with strictly increasing inertial
timestamps, one GNSS sample stamped at the first inertial timestamp and one
LIDAR sample stamped at the last inertial timestamp. -/
def inpW : FilterInput :=
  ⟨2, (fun n => if n = 0 then 0 else 1), (fun _ => ![0, 0, 0]), (fun _ => ![0, 0, 0]),
   1, (fun _ => 0), (fun _ => ![0, 0, 0]),
   1, (fun _ => 1), (fun _ => ![0, 0, 0])⟩

/-- A concrete two-sample input timeline whose inertial timestamps decrease
(`Δt = −1` at step 1), with no GNSS or LIDAR samples. -/
def inp9 : FilterInput :=
  ⟨2, (fun n => if n = 0 then 1 else 0), (fun _ => ![0, 0, 0]), (fun _ => ![0, 0, 0]),
   0, (fun _ => 0), (fun _ => ![0, 0, 0]),
   0, (fun _ => 0), (fun _ => ![0, 0, 0])⟩

/-- A concrete 9×9 covariance whose position block is the identity and whose
remaining entries are zero. -/
def P5 : Matrix (Fin 9) (Fin 9) ℚ :=
  Matrix.of fun (i j : Fin 9) => if i = j ∧ (i : ℕ) < 3 then 1 else 0

end ESEKF

namespace ESEKF

/-! ### Helper lemmas -/

/-- The squared quaternion norm is multiplicative (Euler's four-square
identity for the Hamilton product). -/
theorem qnorm2_quatMul (a b : Quat) : qnorm2 (quatMul a b) = qnorm2 a * qnorm2 b := by
  obtain ⟨aw, ax, ay, az⟩ := a
  obtain ⟨bw, bx, by', bz⟩ := b
  simp only [quatMul, qnorm2]
  ring

/-- `h_jac` selects: row `i` is the indicator of column `c39 i`. -/
theorem h_jac_indicator :
    h_jac = Matrix.of fun (i : Fin 3) (j : Fin 9) => if j = c39 i then 1 else 0 := by
  decide

/-- Left-multiplying by `h_jac` extracts the first three rows. -/
theorem h_jac_mul (P : Matrix (Fin 9) (Fin 9) ℚ) :
    h_jac * P = P.submatrix c39 id := by
  rw [h_jac_indicator]
  ext i j
  simp [Matrix.mul_apply, Matrix.submatrix_apply, ite_mul, Finset.sum_ite_eq]

/-- Right-multiplying by `h_jacᵀ` extracts the first three columns. -/
theorem mul_h_jacT {m : Type} [Fintype m] (M : Matrix m (Fin 9) ℚ) :
    M * h_jac.transpose = M.submatrix id c39 := by
  rw [h_jac_indicator]
  ext i j
  simp [Matrix.mul_apply, Matrix.transpose_apply, Matrix.submatrix_apply, mul_ite,
    Finset.sum_ite_eq]

/-- `H·P·Hᵀ` is the position block of `P`. -/
theorem h_jac_conj (P : Matrix (Fin 9) (Fin 9) ℚ) :
    h_jac * P * h_jac.transpose = posBlock P := by
  rw [mul_h_jacT, h_jac_mul, posBlock, Matrix.submatrix_submatrix]
  rfl

/-- The Kalman gain in terms of the position block. -/
theorem k_gain_eq (sensor_var : ℚ) (P : Matrix (Fin 9) (Fin 9) ℚ) :
    k_gain sensor_var P
      = P.submatrix id c39
          * inv3 (posBlock P + sensor_var • (1 : Matrix (Fin 3) (Fin 3) ℚ)) := by
  unfold k_gain
  rw [h_jac_conj, mul_h_jacT]

/-- The position block of the Kalman gain in terms of the position block of
the covariance. -/
theorem topBlock_k_gain (sensor_var : ℚ) (P : Matrix (Fin 9) (Fin 9) ℚ) :
    topBlock (k_gain sensor_var P)
      = posBlock P
          * inv3 (posBlock P + sensor_var • (1 : Matrix (Fin 3) (Fin 3) ℚ)) := by
  rw [k_gain_eq]
  ext i j
  simp [topBlock, posBlock, Matrix.mul_apply, Matrix.submatrix_apply]

/-- The position block of the corrected covariance `(I₉ − K·H)·P`. -/
theorem corrected_posBlock (sensor_var : ℚ) (P : Matrix (Fin 9) (Fin 9) ℚ) :
    posBlock (((1 : Matrix (Fin 9) (Fin 9) ℚ) - k_gain sensor_var P * h_jac) * P)
      = posBlock P - topBlock (k_gain sensor_var P) * posBlock P := by
  rw [Matrix.sub_mul, Matrix.one_mul, Matrix.mul_assoc, h_jac_mul]
  ext i j
  simp [posBlock, topBlock, Matrix.sub_apply, Matrix.mul_apply, Matrix.submatrix_apply]

/-- Slicing the first three entries of `K·y` gives the position block of `K`
applied to `y`. -/
theorem seg0_mulVec (K : Matrix (Fin 9) (Fin 3) ℚ) (y : Fin 3 → ℚ) :
    seg0 (K.mulVec y) = (topBlock K).mulVec y := rfl

/-- The dot product of a rational vector with itself is nonnegative. -/
theorem dot_self_nonneg {n : ℕ} (x : Fin n → ℚ) : 0 ≤ Matrix.dotProduct x x :=
  Finset.sum_nonneg fun i _ => mul_self_nonneg (x i)

/-- The dot product of a nonzero rational vector with itself is positive. -/
theorem dot_self_pos {n : ℕ} (x : Fin n → ℚ) (hx : x ≠ 0) :
    0 < Matrix.dotProduct x x := by
  obtain ⟨i, hi⟩ : ∃ i, x i ≠ 0 := by
    by_contra hc
    push_neg at hc
    exact hx (funext hc)
  exact Finset.sum_pos' (fun j _ => mul_self_nonneg (x j))
    ⟨i, Finset.mem_univ i, mul_self_pos.mpr hi⟩

/-- The quadratic form of the position block is the quadratic form of the full
covariance at the zero-padded vector `Hᵀ·x`. -/
theorem posBlock_quadform (P : Matrix (Fin 9) (Fin 9) ℚ) (x : Fin 3 → ℚ) :
    Matrix.dotProduct x ((posBlock P).mulVec x)
      = Matrix.dotProduct (h_jac.transpose.mulVec x)
          (P.mulVec (h_jac.transpose.mulVec x)) := by
  rw [← h_jac_conj, Matrix.mul_assoc, ← Matrix.mulVec_mulVec,
    Matrix.dotProduct_mulVec, Matrix.mulVec_mulVec, Matrix.mulVec_transpose]

/-- Positive semi-definiteness transfers from the full covariance to its
position block. -/
theorem posBlock_psd (P : Matrix (Fin 9) (Fin 9) ℚ)
    (hP : ∀ x : Fin 9 → ℚ, 0 ≤ Matrix.dotProduct x (P.mulVec x)) :
    ∀ x : Fin 3 → ℚ, 0 ≤ Matrix.dotProduct x ((posBlock P).mulVec x) := by
  intro x
  rw [posBlock_quadform]
  exact hP _

/-- A PSD matrix plus a positive multiple of the identity is positive
definite. -/
theorem innov_pd (A : Matrix (Fin 3) (Fin 3) ℚ) (sv : ℚ) (hsv : 0 < sv)
    (hA : ∀ x : Fin 3 → ℚ, 0 ≤ Matrix.dotProduct x (A.mulVec x)) :
    ∀ x : Fin 3 → ℚ, x ≠ 0 →
      0 < Matrix.dotProduct x
        ((A + sv • (1 : Matrix (Fin 3) (Fin 3) ℚ)).mulVec x) := by
  intro x hx
  rw [Matrix.add_mulVec, Matrix.smul_mulVec_assoc, Matrix.one_mulVec,
    Matrix.dotProduct_add, Matrix.dotProduct_smul, smul_eq_mul]
  exact add_pos_of_nonneg_of_pos (hA x) (mul_pos hsv (dot_self_pos x hx))

/-- A positive-definite rational 3×3 matrix has nonzero determinant. -/
theorem pd_det_ne_zero (S : Matrix (Fin 3) (Fin 3) ℚ)
    (hS : ∀ x : Fin 3 → ℚ, x ≠ 0 → 0 < Matrix.dotProduct x (S.mulVec x)) :
    S.det ≠ 0 := by
  intro hdet
  obtain ⟨u, hu, hmul⟩ := Matrix.exists_mulVec_eq_zero_iff.mpr hdet
  have h := hS u hu
  rw [hmul, Matrix.dotProduct_zero] at h
  exact lt_irrefl 0 h

/-- `inv3` is a right inverse when the determinant is nonzero. -/
theorem inv3_mul_cancel (S : Matrix (Fin 3) (Fin 3) ℚ) (h : S.det ≠ 0) :
    S * inv3 S = 1 := by
  unfold inv3
  rw [Matrix.mul_smul, Matrix.mul_adjugate, smul_smul, inv_mul_cancel₀ h, one_smul]

/-- The inverse of a positive-definite matrix is positive definite. -/
theorem inv3_pd (S : Matrix (Fin 3) (Fin 3) ℚ) (hdet : S.det ≠ 0)
    (hS : ∀ x : Fin 3 → ℚ, x ≠ 0 → 0 < Matrix.dotProduct x (S.mulVec x)) :
    ∀ x : Fin 3 → ℚ, x ≠ 0 → 0 < Matrix.dotProduct x ((inv3 S).mulVec x) := by
  intro x hx
  have hSu : S.mulVec ((inv3 S).mulVec x) = x := by
    rw [Matrix.mulVec_mulVec, inv3_mul_cancel S hdet, Matrix.one_mulVec]
  have hune : (inv3 S).mulVec x ≠ 0 := by
    intro h0
    apply hx
    rw [← hSu, h0, Matrix.mulVec_zero]
  calc (0 : ℚ)
      < Matrix.dotProduct ((inv3 S).mulVec x) (S.mulVec ((inv3 S).mulVec x)) :=
        hS _ hune
    _ = Matrix.dotProduct ((inv3 S).mulVec x) x := by rw [hSu]
    _ = Matrix.dotProduct x ((inv3 S).mulVec x) := Matrix.dotProduct_comm _ x

/-- The trace of `A·B·A` for symmetric `A` is the sum over columns of the
`B`-quadratic form of the columns of `A`. -/
theorem trace_conj_eq (A B : Matrix (Fin 3) (Fin 3) ℚ) (hA : A.transpose = A) :
    Matrix.trace (A * B * A)
      = ∑ j : Fin 3,
          Matrix.dotProduct (fun i => A i j) (B.mulVec fun i => A i j) := by
  have hsym : ∀ a b, A a b = A b a := by
    intro a b
    conv_lhs => rw [← hA]
    exact Matrix.transpose_apply A a b
  simp only [Matrix.trace, Matrix.diag, Matrix.mul_apply, Matrix.dotProduct,
    Matrix.mulVec, Fin.sum_univ_three]
  rw [hsym 1 0, hsym 2 0, hsym 2 1]
  ring

/-- The source-shaped noise Jacobian coincides with the spec's block form. -/
theorem l_jac_eq_claim : l_jac = L_claim := by decide

/-- The source-shaped motion-model Jacobian coincides with the spec's
identity-plus-two-blocks form. -/
theorem f_ja_km_eq_claim (delta_t : ℚ) (cf : Fin 3 → ℚ) :
    f_ja_km delta_t cf = F_claim delta_t cf := by
  ext i j
  simp only [f_ja_km, F_claim, Matrix.of_apply, Matrix.add_apply, Matrix.one_apply,
    Matrix.neg_apply, Fin.ext_iff, Fin.mk.injEq]
  split_ifs <;> first | ring1 | omega

/-- The source-shaped process-noise covariance coincides with the spec's
diagonal form. -/
theorem q_cov_km_eq_claim (delta_t vf vw : ℚ) :
    q_cov_km delta_t vf vw = Q_claim delta_t vf vw := by
  ext i j
  simp only [q_cov_km, Q_claim, Matrix.of_apply, Matrix.one_apply, Fin.ext_iff]
  split_ifs <;> first | ring1 | omega

/-! ### Claim theorems -/

/-- C1: for every inertial step, the propagator returns
`p + Δt·v + (Δt²/2)·(C(q)·f + g)`, `v + Δt·(C(q)·f + g)`, and the
orientation `q` composed with the quaternion built from the axis-angle
vector `ω·Δt`, the incremental body-frame rotation composed on the
body-frame side of `q`. -/
theorem propagate_matches_spec (R : RotationAlgebra) (delta_t : ℚ)
    (f w : Fin 3 → ℚ) (st : NomState) :
    propagateNominal R delta_t f w st = propagateClaim R delta_t f w st := rfl

/-- C2: the next error covariance equals `F·P·Fᵀ + L·Q·Lᵀ` with `F` the
identity plus the `I₃·Δt` position-velocity block and the `−skew(C(q)·f)·Δt`
velocity-rotation block, `Q = diag(Δt²·var_f·I₃, Δt²·var_ω·I₃)`, and `L` the
fixed 9×6 matrix injecting noise only into the velocity and rotation blocks. -/
theorem covPropagate_matches_spec (R : RotationAlgebra) (q : Quat)
    (f : Fin 3 → ℚ) (delta_t vf vw : ℚ) (P : Matrix (Fin 9) (Fin 9) ℚ) :
    covPropagate delta_t ((R.toMat q).mulVec f) vf vw P
      = F_claim delta_t ((R.toMat q).mulVec f) * P
          * (F_claim delta_t ((R.toMat q).mulVec f)).transpose
        + L_claim * Q_claim delta_t vf vw * L_claim.transpose := by
  rw [covPropagate, f_ja_km_eq_claim, q_cov_km_eq_claim, l_jac_eq_claim]

/-- C3: the measurement corrector returns `p + δx[0:3]`, `v + δx[3:6]`, the
quaternion built from the small-angle rotation vector `δx[6:9]` composed on
the left of `q`, and covariance `(I₉ − K·H)·P`, where `K = P·Hᵀ·S⁻¹`,
`S = H·P·Hᵀ + σ²·I₃` and `δx = K·(y − p)`; one and the same function serves
GNSS and LIDAR, differing only in the supplied variance. -/
theorem measurement_update_matches_spec (R : RotationAlgebra) (sensor_var : ℚ)
    (P : Matrix (Fin 9) (Fin 9) ℚ) (y p v : Fin 3 → ℚ) (q : Quat) :
    measurement_update R sensor_var P y p v q
      = measurementClaim R sensor_var P y p v q := rfl

/-- The main-loop body coincides with the spec-form scheduler step. -/
theorem filterStep_eq_claim (R : RotationAlgebra) (inp : FilterInput)
    (k : ℕ) (st : FilterState) :
    filterStep R inp k st = schedStepClaim R inp k st := by
  unfold filterStep schedStepClaim applyCorrector gnssFires lidarFires
  by_cases hg : st.gnss_i < inp.gnssN ∧ inp.imu_t k = inp.gnss_t st.gnss_i <;>
    by_cases hl : st.lidar_i < inp.lidarN ∧ inp.lidar_t st.lidar_i = inp.imu_t (k - 1) <;>
      simp [hg, hl]

/-- C4: each scheduler step applies a GNSS correction exactly when the GNSS
gating condition fires (the cursor then advancing by one), then a LIDAR
correction exactly when the LIDAR gating condition fires (its cursor then
advancing by one), the LIDAR correction operating on the state and covariance
already updated by the GNSS correction — GNSS before LIDAR, deterministically. -/
theorem scheduler_step_matches_spec (R : RotationAlgebra) (inp : FilterInput)
    (k : ℕ) (st : FilterState) :
    filterStep R inp k st = schedStepClaim R inp k st
    ∧ ((filterStep R inp k st).gnss_i = st.gnss_i + 1 ↔ gnssFires inp st.gnss_i k)
    ∧ ((filterStep R inp k st).lidar_i = st.lidar_i + 1 ↔ lidarFires inp st.lidar_i k) := by
  refine ⟨filterStep_eq_claim R inp k st, ?_, ?_⟩ <;>
    rw [filterStep_eq_claim] <;> unfold schedStepClaim <;>
      by_cases hg : gnssFires inp st.gnss_i k <;>
        by_cases hl : lidarFires inp st.lidar_i k <;>
          simp [hg, hl]

/-- C7: unit quaternion norm is invariant: the orientation has unit (squared)
norm after every nominal propagation, after every measurement correction, and
at every step of the filter run, provided the rotation-algebra constructors
return unit quaternions and the initial orientation is unit. -/
theorem orientation_unit_norm (R : RotationAlgebra) (inp : FilterInput)
    (init : FilterState)
    (hAA : ∀ v, qnorm2 (R.fromAxisAngle v) = 1)
    (hE : ∀ v, qnorm2 (R.fromEuler v) = 1)
    (hinit : qnorm2 init.s.q = 1) :
    (∀ delta_t f w s, qnorm2 s.q = 1 →
        qnorm2 (propagateNominal R delta_t f w s).q = 1)
    ∧ (∀ sensor_var P y p v q, qnorm2 q = 1 →
        qnorm2 (measurement_update R sensor_var P y p v q).2.2.1 = 1)
    ∧ (∀ k, qnorm2 ((stateAt R inp init k).s.q) = 1) := by
  have hprop : ∀ delta_t f w s, qnorm2 s.q = 1 →
      qnorm2 (propagateNominal R delta_t f w s).q = 1 := by
    intro delta_t f w s hs
    simp only [propagateNominal, Quat.quat_mult_right]
    rw [qnorm2_quatMul, hs, hAA, one_mul]
  have hcorr : ∀ sensor_var P y p v q, qnorm2 q = 1 →
      qnorm2 (measurement_update R sensor_var P y p v q).2.2.1 = 1 := by
    intro sensor_var P y p v q hq
    simp only [measurement_update, Quat.quat_mult_left]
    rw [qnorm2_quatMul, hq, hE, mul_one]
  refine ⟨hprop, hcorr, ?_⟩
  have hstep : ∀ k s, qnorm2 (FilterState.s s).q = 1 →
      qnorm2 ((filterStep R inp k s).s.q) = 1 := by
    intro k s hs
    rw [filterStep_eq_claim]
    by_cases hg : gnssFires inp s.gnss_i k <;>
      by_cases hl : lidarFires inp s.lidar_i k <;>
        simp only [schedStepClaim, applyCorrector, hg, hl, if_true, if_false,
          iff_true, iff_false, ite_true, ite_false]
    · exact hcorr _ _ _ _ _ _ (hcorr _ _ _ _ _ _ (hprop _ _ _ _ hs))
    · exact hcorr _ _ _ _ _ _ (hprop _ _ _ _ hs)
    · exact hcorr _ _ _ _ _ _ (hprop _ _ _ _ hs)
    · exact hprop _ _ _ _ hs
  intro k
  induction k with
  | zero => exact hinit
  | succ n ih => exact hstep (n + 1) _ ih

/-- Witness for C7 at a concrete rotation algebra with unit constructors, a
concrete input timeline and a concrete unit-orientation initial state. -/
theorem orientation_unit_norm_witness :
    qnorm2 init0.s.q = 1
    ∧ qnorm2 ((stateAt trivialRA inpW init0 1).s.q) = 1 := by
  have hAA : ∀ v, qnorm2 (trivialRA.fromAxisAngle v) = 1 := by
    intro v
    norm_num [trivialRA, quatId, qnorm2]
  have hE : ∀ v, qnorm2 (trivialRA.fromEuler v) = 1 := by
    intro v
    norm_num [trivialRA, quatId, qnorm2]
  have hinit : qnorm2 init0.s.q = 1 := by norm_num [init0, st0, qnorm2]
  exact ⟨hinit, (orientation_unit_norm trivialRA inpW init0 hAA hE hinit).2.2 1⟩

/-- C8: propagating with elapsed time `Δt = 0` is a no-op: for every state
and every inertial sample pair, position, velocity and orientation are
returned unchanged (given that the axis-angle constructor sends the zero
vector to the identity quaternion). -/
theorem propagate_zero_dt (R : RotationAlgebra)
    (h0 : R.fromAxisAngle 0 = quatId) (f w : Fin 3 → ℚ) (st : NomState) :
    propagateNominal R 0 f w st = st := by
  obtain ⟨p, v, q⟩ := st
  obtain ⟨qw, qx, qy, qz⟩ := q
  unfold propagateNominal Quat.quat_mult_right
  rw [show (0 : ℚ) • w = 0 from zero_smul _ _, h0]
  simp [quatMul, quatId]

/-- Witness for C8 at a concrete rotation algebra, state and sample pair. -/
theorem propagate_zero_dt_witness :
    trivialRA.fromAxisAngle 0 = quatId
    ∧ propagateNominal trivialRA 0 ![1, 2, 3] ![4, 5, 6] st0 = st0 :=
  ⟨rfl, propagate_zero_dt trivialRA rfl ![1, 2, 3] ![4, 5, 6] st0⟩

/-- C5: with the position block of `P` equal to `I₃`, `σ² = 1`, observation
`y = (1,0,0)` and estimated position `p = (0,0,0)`, the position block of the
Kalman gain is `0.5·I₃`, the corrected position is `(0.5, 0, 0)`, and the
position block of the corrected covariance is `0.5·I₃`. -/
theorem gnss_correction_scenario (R : RotationAlgebra)
    (P : Matrix (Fin 9) (Fin 9) ℚ) (v : Fin 3 → ℚ) (q : Quat)
    (hP : posBlock P = 1) :
    topBlock (k_gain 1 P) = (2⁻¹ : ℚ) • 1
    ∧ (measurement_update R 1 P ![1, 0, 0] ![0, 0, 0] v q).1 = ![2⁻¹, 0, 0]
    ∧ posBlock (measurement_update R 1 P ![1, 0, 0] ![0, 0, 0] v q).2.2.2
        = (2⁻¹ : ℚ) • 1 := by
  have h2 : (1 : Matrix (Fin 3) (Fin 3) ℚ) + (1 : ℚ) • 1 = (2 : ℚ) • 1 := by
    rw [one_smul]
    exact (two_smul ℚ (1 : Matrix (Fin 3) (Fin 3) ℚ)).symm
  have hinv : inv3 ((2 : ℚ) • (1 : Matrix (Fin 3) (Fin 3) ℚ)) = (2⁻¹ : ℚ) • 1 := by
    unfold inv3
    rw [Matrix.det_smul, Matrix.det_one, Matrix.adjugate_smul, Matrix.adjugate_one,
      smul_smul]
    norm_num [Fintype.card_fin]
  have htop : topBlock (k_gain 1 P) = (2⁻¹ : ℚ) • 1 := by
    rw [topBlock_k_gain, hP, h2, hinv, Matrix.one_mul]
  refine ⟨htop, ?_, ?_⟩
  · show (![0, 0, 0] : Fin 3 → ℚ)
        + seg0 ((k_gain 1 P).mulVec (![1, 0, 0] - ![0, 0, 0])) = ![2⁻¹, 0, 0]
    rw [seg0_mulVec, htop]
    funext i
    fin_cases i <;>
      simp [Matrix.mulVec, Matrix.dotProduct, Fin.sum_univ_three, Matrix.smul_apply,
        Matrix.one_apply]
  · show posBlock (((1 : Matrix (Fin 9) (Fin 9) ℚ) - k_gain 1 P * h_jac) * P)
        = (2⁻¹ : ℚ) • 1
    rw [corrected_posBlock, hP, htop, Matrix.mul_one, sub_eq_iff_eq_add, ← add_smul]
    norm_num

/-- Witness for C5 at the concrete covariance `P5`. -/
theorem gnss_correction_scenario_witness :
    posBlock P5 = 1
    ∧ (topBlock (k_gain 1 P5) = (2⁻¹ : ℚ) • 1
      ∧ (measurement_update trivialRA 1 P5 ![1, 0, 0] ![0, 0, 0] ![0, 0, 0] quatId).1
          = ![2⁻¹, 0, 0]
      ∧ posBlock
          (measurement_update trivialRA 1 P5 ![1, 0, 0] ![0, 0, 0] ![0, 0, 0] quatId).2.2.2
          = (2⁻¹ : ℚ) • 1) :=
  ⟨by decide, gnss_correction_scenario trivialRA P5 ![0, 0, 0] quatId (by decide)⟩

/-- C6 (amended): for every measurement correction with `σ² > 0` applied to a
symmetric positive-semi-definite covariance `P`, the trace of the position
block of the corrected covariance never exceeds the trace of the position
block of `P`, and it is strictly smaller whenever the position block of `P`
is nonzero (when the position block is zero the two traces are equal). -/
theorem correction_shrinks_trace (R : RotationAlgebra) (sensor_var : ℚ)
    (P : Matrix (Fin 9) (Fin 9) ℚ) (y p v : Fin 3 → ℚ) (q : Quat)
    (hsv : 0 < sensor_var) (hP : SymPosSemidef P) :
    Matrix.trace (posBlock (measurement_update R sensor_var P y p v q).2.2.2)
      ≤ Matrix.trace (posBlock P)
    ∧ (posBlock P ≠ 0 →
        Matrix.trace (posBlock (measurement_update R sensor_var P y p v q).2.2.2)
          < Matrix.trace (posBlock P)) := by
  obtain ⟨hsym, hpsd⟩ := hP
  have hApsd : ∀ x : Fin 3 → ℚ, 0 ≤ Matrix.dotProduct x ((posBlock P).mulVec x) :=
    posBlock_psd P hpsd
  have hAsym : (posBlock P).transpose = posBlock P := by
    rw [posBlock, Matrix.transpose_submatrix, hsym]
  have hSpd : ∀ x : Fin 3 → ℚ, x ≠ 0 →
      0 < Matrix.dotProduct x
        ((posBlock P + sensor_var • (1 : Matrix (Fin 3) (Fin 3) ℚ)).mulVec x) :=
    innov_pd (posBlock P) sensor_var hsv hApsd
  have hdet : (posBlock P + sensor_var • (1 : Matrix (Fin 3) (Fin 3) ℚ)).det ≠ 0 :=
    pd_det_ne_zero _ hSpd
  have hSinv_pd := inv3_pd _ hdet hSpd
  have hcov : posBlock (measurement_update R sensor_var P y p v q).2.2.2
      = posBlock P
        - posBlock P * inv3 (posBlock P + sensor_var • (1 : Matrix (Fin 3) (Fin 3) ℚ))
          * posBlock P := by
    show posBlock (((1 : Matrix (Fin 9) (Fin 9) ℚ) - k_gain sensor_var P * h_jac) * P) = _
    rw [corrected_posBlock, topBlock_k_gain]
  have htr := trace_conj_eq (posBlock P)
    (inv3 (posBlock P + sensor_var • (1 : Matrix (Fin 3) (Fin 3) ℚ))) hAsym
  have hterm : ∀ j : Fin 3,
      0 ≤ Matrix.dotProduct (fun i => posBlock P i j)
        ((inv3 (posBlock P + sensor_var • (1 : Matrix (Fin 3) (Fin 3) ℚ))).mulVec
          fun i => posBlock P i j) := by
    intro j
    by_cases hcol : (fun i => posBlock P i j) = (0 : Fin 3 → ℚ)
    · rw [hcol, Matrix.mulVec_zero, Matrix.dotProduct_zero]
    · exact le_of_lt (hSinv_pd _ hcol)
  have hTnonneg : 0 ≤ Matrix.trace (posBlock P
      * inv3 (posBlock P + sensor_var • (1 : Matrix (Fin 3) (Fin 3) ℚ)) * posBlock P) := by
    rw [htr]
    exact Finset.sum_nonneg fun j _ => hterm j
  constructor
  · rw [hcov, Matrix.trace_sub]
    linarith
  · intro hA0
    obtain ⟨i, j, hij⟩ : ∃ i j, posBlock P i j ≠ 0 := by
      by_contra hc
      push_neg at hc
      apply hA0
      ext a b
      exact hc a b
    have hcol : (fun a => posBlock P a j) ≠ (0 : Fin 3 → ℚ) := by
      intro h0
      exact hij (congrFun h0 i)
    have hTpos : 0 < Matrix.trace (posBlock P
        * inv3 (posBlock P + sensor_var • (1 : Matrix (Fin 3) (Fin 3) ℚ)) * posBlock P) := by
      rw [htr]
      exact Finset.sum_pos' (fun b _ => hterm b)
        ⟨j, Finset.mem_univ j, hSinv_pd _ hcol⟩
    rw [hcov, Matrix.trace_sub]
    linarith

/-- Counterexample to C6 as stated: at the zero covariance (the filter's own
initial `p_cov[0]`) with `σ² = 1`, the trace of the position block of the
corrected covariance equals that of the prior covariance — it is not strictly
smaller. -/
theorem correction_trace_not_strict :
    (0 : ℚ) < 1
    ∧ SymPosSemidef (0 : Matrix (Fin 9) (Fin 9) ℚ)
    ∧ ¬ Matrix.trace (posBlock
          (measurement_update trivialRA 1 0 ![0, 0, 0] ![0, 0, 0] ![0, 0, 0]
            quatId).2.2.2)
        < Matrix.trace (posBlock (0 : Matrix (Fin 9) (Fin 9) ℚ)) := by
  refine ⟨by norm_num, ⟨Matrix.transpose_zero, ?_⟩, ?_⟩
  · intro x
    rw [Matrix.zero_mulVec, Matrix.dotProduct_zero]
  · have hcov : (measurement_update trivialRA 1 0 ![0, 0, 0] ![0, 0, 0] ![0, 0, 0]
        quatId).2.2.2 = 0 :=
      Matrix.mul_zero _
    rw [hcov]
    exact lt_irrefl _

/-- Witness for the amended C6 at the identity covariance. -/
theorem correction_shrinks_trace_witness :
    (0 : ℚ) < 1
    ∧ SymPosSemidef (1 : Matrix (Fin 9) (Fin 9) ℚ)
    ∧ posBlock (1 : Matrix (Fin 9) (Fin 9) ℚ) ≠ 0
    ∧ Matrix.trace (posBlock
        (measurement_update trivialRA 1 1 ![0, 0, 0] ![0, 0, 0] ![0, 0, 0]
          quatId).2.2.2)
      < Matrix.trace (posBlock (1 : Matrix (Fin 9) (Fin 9) ℚ)) := by
  have h1 : (0 : ℚ) < 1 := by norm_num
  have hsym : SymPosSemidef (1 : Matrix (Fin 9) (Fin 9) ℚ) :=
    ⟨Matrix.transpose_one, fun x => by rw [Matrix.one_mulVec]; exact dot_self_nonneg x⟩
  have hne : posBlock (1 : Matrix (Fin 9) (Fin 9) ℚ) ≠ 0 := by
    intro h
    have h00 := congrFun (congrFun h 0) 0
    simp [posBlock, Matrix.submatrix_apply, Matrix.one_apply, c39] at h00
  exact ⟨h1, hsym, hne,
    (correction_shrinks_trace trivialRA 1 1 ![0, 0, 0] ![0, 0, 0] ![0, 0, 0] quatId
      h1 hsym).2 hne⟩

/-- C9 (amended): the loop performs no Δt validation: with `Δt ≤ 0` at step
`k` (and no pending measurement samples) the loop body still performs the
ordinary nominal and covariance propagation with that non-positive `Δt`, the
cursors stay in place, and the run continues; no InvalidTimestep fault
exists. -/
theorem nonpositive_dt_propagates (R : RotationAlgebra) (inp : FilterInput)
    (k : ℕ) (st : FilterState)
    (hdt : inp.imu_t k ≤ inp.imu_t (k - 1))
    (hg : inp.gnssN = 0) (hl : inp.lidarN = 0) :
    filterStep R inp k st
      = ⟨propagateNominal R (inp.imu_t k - inp.imu_t (k - 1)) (inp.imu_f (k - 1))
            (inp.imu_w (k - 1)) st.s,
         covPropagate (inp.imu_t k - inp.imu_t (k - 1))
            ((R.toMat st.s.q).mulVec (inp.imu_f (k - 1))) var_imu_f var_imu_w st.P,
         st.gnss_i, st.lidar_i⟩ := by
  simp [filterStep, hg, hl]

/-- Counterexample to C9 as stated: on a concrete timeline whose inertial
clock decreases (`Δt = −1 ≤ 0` at step 1) the propagation still proceeds —
the run does not abort and the position changes according to the ordinary
propagation formulas. -/
theorem invalid_timestep_not_fatal :
    inp9.imu_t 1 - inp9.imu_t 0 ≤ 0
    ∧ (stateAt trivialRA inp9 init0 1).s.p 0 = -3
    ∧ (stateAt trivialRA inp9 init0 1).s.p ≠ init0.s.p := by
  have hdt : inp9.imu_t 1 - inp9.imu_t 0 ≤ 0 := by norm_num [inp9]
  have hp : (stateAt trivialRA inp9 init0 1).s.p 0 = -3 := by
    show (filterStep trivialRA inp9 1 init0).s.p 0 = -3
    simp [filterStep, propagateNominal, inp9, init0, st0, trivialRA, g]
    norm_num
  refine ⟨hdt, hp, fun h => ?_⟩
  have h0 := congrFun h 0
  rw [hp] at h0
  norm_num [init0, st0] at h0

/-- Witness for the amended C9 at a concrete decreasing timeline. -/
theorem nonpositive_dt_propagates_witness :
    inp9.imu_t 1 ≤ inp9.imu_t 0
    ∧ filterStep trivialRA inp9 1 init0
      = ⟨propagateNominal trivialRA (inp9.imu_t 1 - inp9.imu_t 0) (inp9.imu_f 0)
            (inp9.imu_w 0) init0.s,
         covPropagate (inp9.imu_t 1 - inp9.imu_t 0)
            ((trivialRA.toMat init0.s.q).mulVec (inp9.imu_f 0)) var_imu_f var_imu_w
            init0.P,
         init0.gnss_i, init0.lidar_i⟩ :=
  ⟨by norm_num [inp9],
   nonpositive_dt_propagates trivialRA inp9 1 init0 (by norm_num [inp9]) rfl rfl⟩

/-- The GNSS cursor after one loop iteration: it advances exactly when the
GNSS gating condition fires. -/
theorem filterStep_gnss_i (R : RotationAlgebra) (inp : FilterInput) (k : ℕ)
    (st : FilterState) :
    (filterStep R inp k st).gnss_i
      = if gnssFires inp st.gnss_i k then st.gnss_i + 1 else st.gnss_i := by
  rw [filterStep_eq_claim]
  rfl

/-- The LIDAR cursor after one loop iteration: it advances exactly when the
LIDAR gating condition fires. -/
theorem filterStep_lidar_i (R : RotationAlgebra) (inp : FilterInput) (k : ℕ)
    (st : FilterState) :
    (filterStep R inp k st).lidar_i
      = if lidarFires inp st.lidar_i k then st.lidar_i + 1 else st.lidar_i := by
  rw [filterStep_eq_claim]
  rfl

/-- C10: with strictly increasing inertial timestamps, a GNSS sample stamped
at the first inertial timestamp (index 0) is never consumed, and a LIDAR
sample stamped at the last inertial timestamp (index N−1) is never consumed:
the loop runs `k = 1…N−1` and compares the GNSS cursor only against inertial
timestamps `1…N−1` and the LIDAR cursor only against `0…N−2`, so once either
cursor points at such a sample it never advances for the rest of the run. -/
theorem boundary_samples_never_consumed (R : RotationAlgebra) (inp : FilterInput)
    (init : FilterState) (m : ℕ)
    (hmono : ∀ a b : ℕ, a < b → b < inp.N → inp.imu_t a < inp.imu_t b) :
    (inp.gnss_t ((stateAt R inp init m).gnss_i) = inp.imu_t 0 →
      ∀ k, m ≤ k → k < inp.N →
        (stateAt R inp init k).gnss_i = (stateAt R inp init m).gnss_i)
    ∧ (inp.lidar_t ((stateAt R inp init m).lidar_i) = inp.imu_t (inp.N - 1) →
      ∀ k, m ≤ k → k < inp.N →
        (stateAt R inp init k).lidar_i = (stateAt R inp init m).lidar_i) := by
  constructor
  · intro h0 k hmk
    induction k, hmk using Nat.le_induction with
    | base => intro _; rfl
    | succ n hmn ih =>
      intro hn1
      have ihc := ih (Nat.lt_of_succ_lt hn1)
      have hnofire : ¬ gnssFires inp ((stateAt R inp init n).gnss_i) (n + 1) := by
        intro hf
        obtain ⟨-, heq⟩ := hf
        rw [ihc, h0] at heq
        exact absurd heq (ne_of_gt (hmono 0 (n + 1) (Nat.succ_pos n) hn1))
      show (filterStep R inp (n + 1) (stateAt R inp init n)).gnss_i = _
      rw [filterStep_gnss_i, if_neg hnofire, ihc]
  · intro h0 k hmk
    induction k, hmk using Nat.le_induction with
    | base => intro _; rfl
    | succ n hmn ih =>
      intro hn1
      have ihc := ih (Nat.lt_of_succ_lt hn1)
      have hnofire : ¬ lidarFires inp ((stateAt R inp init n).lidar_i) (n + 1) := by
        intro hf
        obtain ⟨-, heq⟩ := hf
        rw [Nat.add_sub_cancel, ihc, h0] at heq
        have hlt : inp.imu_t n < inp.imu_t (inp.N - 1) :=
          hmono n (inp.N - 1) (by omega) (by omega)
        exact absurd heq (ne_of_gt hlt)
      show (filterStep R inp (n + 1) (stateAt R inp init n)).lidar_i = _
      rw [filterStep_lidar_i, if_neg hnofire, ihc]

/-- Witness for C10 at a concrete two-sample timeline. -/
theorem boundary_samples_never_consumed_witness :
    inpW.gnss_t ((stateAt trivialRA inpW init0 0).gnss_i) = inpW.imu_t 0
    ∧ (stateAt trivialRA inpW init0 1).gnss_i = (stateAt trivialRA inpW init0 0).gnss_i
    ∧ inpW.lidar_t ((stateAt trivialRA inpW init0 0).lidar_i)
        = inpW.imu_t (inpW.N - 1)
    ∧ (stateAt trivialRA inpW init0 1).lidar_i
        = (stateAt trivialRA inpW init0 0).lidar_i := by
  have hmono : ∀ a b : ℕ, a < b → b < inpW.N → inpW.imu_t a < inpW.imu_t b := by
    intro a b hab hbN
    have hN : inpW.N = 2 := rfl
    rw [hN] at hbN
    have hb : b = 1 := by omega
    have ha : a = 0 := by omega
    subst ha
    subst hb
    norm_num [inpW]
  have hg : inpW.gnss_t ((stateAt trivialRA inpW init0 0).gnss_i) = inpW.imu_t 0 := by
    norm_num [inpW, init0, stateAt]
  have hl : inpW.lidar_t ((stateAt trivialRA inpW init0 0).lidar_i)
      = inpW.imu_t (inpW.N - 1) := by
    norm_num [inpW, init0, stateAt]
  exact ⟨hg,
    (boundary_samples_never_consumed trivialRA inpW init0 0 hmono).1 hg 1
      (by omega) (by decide),
    hl,
    (boundary_samples_never_consumed trivialRA inpW init0 0 hmono).2 hl 1
      (by omega) (by decide)⟩

end ESEKF
